import Mathlib

/-!
Verification of the rrecycle core: the recursive file-tree operation engine
(`src/lib/lib.rs`, `src/lib/files.rs`), the secure-overwrite algorithm
(`overwrite_file`), the shred callback (`src/operations.rs`), and the
restore collision-resolution loop (`src/lib/util.rs`, `src/operations.rs`).

Paths are modelled as lists of components (`List String`); the filesystem
subtree a traversal walks is modelled as an `FsTree` whose directory entries
are enumerated in list order (the OS enumeration order of `fs::read_dir`);
a directory whose enumeration fails (`read_dir` returning `Err`) is the
`badDir` constructor, carrying the underlying io error code.
-/

namespace RRecycle

/-- A filesystem path as a list of components (models `std::path::PathBuf`). -/
abbrev FsPath := List String

/-- Models `FileErr` from `src/lib/lib.rs`: an underlying io error (as a
numeric code) together with the path it was wrapped with by `FileErr::map`. -/
structure FileErr where
  source : Nat
  file : FsPath
deriving DecidableEq, Repr

/-- Models the `RecursiveCallback` trait of `src/lib/lib.rs` for a stateful
operation with state type `σ`: `cb` processes a discovered path and returns
whether traversal should continue (or a `FileErr`); `display_cb` reports the
path to the user and returns whether traversal should continue. -/
structure RecursiveCallback (σ : Type) where
  cb : σ → FsPath → σ × Except FileErr Bool
  display_cb : σ → FsPath → Bool → σ × Bool

/-- Models the provided method `RecursiveCallback::execute_callbacks`
(`src/lib/lib.rs` lines 14-18): call `display_cb`, then `cb` (whose error,
via `?`, propagates), and return the conjunction of the two results. -/
def execute_callbacks {σ : Type} (op : RecursiveCallback σ) (s : σ)
    (path : FsPath) (is_dir : Bool) : σ × Except FileErr Bool :=
  let d := op.display_cb s path is_dir
  let c := op.cb d.1 path
  (c.1, c.2.map (fun b => d.2 && b))

/-- A filesystem subtree. `file` and `dir` carry their own name (the last
path component); `badDir` is a directory for which `fs::read_dir` fails with
the given io error code. -/
inductive FsTree : Type where
  | file (name : String)
  | dir (name : String) (entries : List FsTree)
  | badDir (name : String) (ecode : Nat)

/-- The last path component of the node. -/
def FsTree.name : FsTree → String
  | .file n => n
  | .dir n _ => n
  | .badDir n _ => n

/-- Models `Path::is_dir` on a node of the tree. -/
def FsTree.isDir : FsTree → Bool
  | .file _ => false
  | .dir _ _ => true
  | .badDir _ _ => true

/-- Outcome of the `for entry in fs::read_dir(dir)` loop body of
`run_op_on_dir_recursive`: either some iteration returned early with
`Ok((count, false))` (`stopped`), or the loop ran to completion with the
given running count (`done`). -/
inductive LoopOutcome : Type where
  | stopped (count : Nat)
  | done (count : Nat)
deriving DecidableEq, Repr

mutual

/-- Models `run_op_on_dir_recursive` (`src/lib/files.rs` lines 30-60).
`dirPath` is the path of the node `t`; `count` is the running count passed
by value. On a non-directory it returns `Ok((count, true))`; on a directory
it runs the entry loop (`runEntries`) and then, if the loop completed,
increments the count and executes the callbacks on the directory itself.
Note the source discards the count returned by the recursive call on a
subdirectory (only `.1`, the bool, is inspected); the model preserves this. -/
def run_op_on_dir_recursive {σ : Type} (op : RecursiveCallback σ) (s : σ)
    (dirPath : FsPath) (t : FsTree) (count : Nat) :
    σ × Except FileErr (Nat × Bool) :=
  match t with
  | .file _ => (s, .ok (count, true))
  | .badDir _ ecode => (s, .error ⟨ecode, dirPath⟩)
  | .dir _ entries =>
    match runEntries op s dirPath entries count with
    | (s1, .error e) => (s1, .error e)
    | (s1, .ok (.stopped c)) => (s1, .ok (c, false))
    | (s1, .ok (.done c)) =>
      match execute_callbacks op s1 dirPath true with
      | (s2, .error e) => (s2, .error e)
      | (s2, .ok b) => (s2, .ok (c + 1, b))

/-- The `for entry in fs::read_dir(dir)` loop of `run_op_on_dir_recursive`
(`src/lib/files.rs` lines 39-52), over the entries of the directory at
`dirPath` in enumeration order. A subdirectory entry is recursed into first;
if the recursion reports `false` the loop returns early with the OLD running
count (the recursive result's count is discarded in the source). A file
entry increments the count and executes the callbacks. -/
def runEntries {σ : Type} (op : RecursiveCallback σ) (s : σ)
    (dirPath : FsPath) (es : List FsTree) (count : Nat) :
    σ × Except FileErr LoopOutcome :=
  match es with
  | [] => (s, .ok (.done count))
  | e :: rest =>
    if e.isDir then
      match run_op_on_dir_recursive op s (dirPath ++ [e.name]) e count with
      | (s1, .error err) => (s1, .error err)
      | (s1, .ok (_, false)) => (s1, .ok (.stopped count))
      | (s1, .ok (_, true)) => runEntries op s1 dirPath rest count
    else
      match execute_callbacks op s (dirPath ++ [e.name]) false with
      | (s1, .error err) => (s1, .error err)
      | (s1, .ok false) => (s1, .ok (.stopped (count + 1)))
      | (s1, .ok true) => runEntries op s1 dirPath rest (count + 1)

end

/-- The `for path in paths` loop of `recurse_on_paths` (`src/lib/lib.rs`
lines 63-74), carrying the running `counter`. Each root is a path together
with the subtree rooted there. If the root is a directory and `recurse` is
set, the recursive traversal runs (its returned bool is ignored and its
count added to the counter); otherwise `execute_callbacks` runs once on the
root with `is_dir = false` and its boolean result is discarded, the counter
unchanged. Errors abort the whole loop. -/
def recurse_on_paths_go {σ : Type} (op : RecursiveCallback σ) (s : σ)
    (roots : List (FsPath × FsTree)) (counter : Nat) (recurse : Bool) :
    σ × Except FileErr Nat :=
  match roots with
  | [] => (s, .ok counter)
  | (p, t) :: rest =>
    if t.isDir && recurse then
      match run_op_on_dir_recursive op s p t 0 with
      | (s1, .error e) => (s1, .error e)
      | (s1, .ok (c, _)) => recurse_on_paths_go op s1 rest (counter + c) recurse
    else
      match execute_callbacks op s p false with
      | (s1, .error e) => (s1, .error e)
      | (s1, .ok _) => recurse_on_paths_go op s1 rest counter recurse

/-- Models `recurse_on_paths` (`src/lib/lib.rs` lines 56-77): run the root
loop with an initial counter of 0. -/
def recurse_on_paths {σ : Type} (op : RecursiveCallback σ)
    (s : σ) (roots : List (FsPath × FsTree)) (recurse : Bool) :
    σ × Except FileErr Nat :=
  recurse_on_paths_go op s roots 0 recurse

/-- An observable callback invocation: `notify` is a `display_cb` call with
its `is_dir` argument, `act` is a `cb` call. -/
inductive Event : Type where
  | notify (path : FsPath) (is_dir : Bool)
  | act (path : FsPath)
deriving DecidableEq, Repr

/-- The instrumented operation: state is the list of events so far; the
boolean answer of `display_cb` is given by `f` and the result of `cb` by
`g`, both as functions of the path (as for the concrete operations of
`src/operations.rs`, whose answers depend only on the current path). -/
def traceOp (f : FsPath → Bool → Bool) (g : FsPath → Except FileErr Bool) :
    RecursiveCallback (List Event) where
  cb := fun s p => (s ++ [.act p], g p)
  display_cb := fun s p d => (s ++ [.notify p d], f p d)

/-! ### The overwrite engine (`overwrite_file`, `src/lib/files.rs` 94-123)

A regular file is modelled by its byte content (`List Nat`, each byte a
value below 256 — byte-ness is irrelevant to the algorithm, which only ever
writes zeros). The model returns the final content together with the total
number of bytes written; the source's `BufWriter` is observationally a
cursor into the file, modelled by an explicit position. -/

/-- `OW_BUFF_SIZE` from the source: `10usize.pow(6)`. -/
def OW_BUFF_SIZE : Nat := 1000000

/-- Models `Write::write_all` on a file open at position `pos`: the bytes
`[pos, pos + buf.length)` are replaced by `buf` (the writes of
`overwrite_file` never reach past the end of the file, so no extension
semantics are needed; the `take`/`drop` formula extends exactly as a real
file would if they did). -/
def write_all (content : List Nat) (pos : Nat) (buf : List Nat) : List Nat :=
  content.take pos ++ buf ++ content.drop (pos + buf.length)

/-- The inner `loop` of one pass of `overwrite_file` (`src/lib/files.rs`
lines 111-119): at offset `pos`, while `file_len - pos >= OW_BUFF_SIZE`
write a full buffer of zeros; otherwise write exactly `file_len - pos`
zeros and break. Returns (content, final position, total bytes written). -/
def ow_loop (file_len : Nat) (content : List Nat) (pos : Nat) (written : Nat) :
    List Nat × Nat × Nat :=
  if OW_BUFF_SIZE ≤ file_len - pos then
    ow_loop file_len (write_all content pos (List.replicate OW_BUFF_SIZE 0))
      (pos + OW_BUFF_SIZE) (written + OW_BUFF_SIZE)
  else
    (write_all content pos (List.replicate (file_len - pos) 0),
     pos + (file_len - pos), written + (file_len - pos))
termination_by file_len - pos
decreasing_by simp only [OW_BUFF_SIZE] at *; omega

/-- The `for _ in 0..runs` loop of `overwrite_file` (`src/lib/files.rs`
lines 106-120): each pass seeks to offset 0 and runs the inner loop.
`file_len` is the length captured from the file's metadata before the loop. -/
def ow_runs (file_len : Nat) (content : List Nat) (written : Nat) :
    Nat → List Nat × Nat
  | 0 => (content, written)
  | r + 1 =>
    let p := ow_loop file_len content 0 written
    ow_runs file_len p.1 p.2.2 r

/-- Models `overwrite_file(file, runs)` (`src/lib/files.rs` lines 94-123):
capture `file_len` from metadata; if the handle denotes a directory return
success immediately (no writes); otherwise run `runs` passes. Returns the
final content and the total number of bytes written. -/
def overwrite_file (is_dir : Bool) (content : List Nat) (runs : Nat) :
    List Nat × Nat :=
  let file_len := content.length
  if is_dir then (content, 0)
  else ow_runs file_len content 0 runs

/-! ### The shred callback (`ShredOperation::cb`, `src/operations.rs` 347-360)

The callback's control flow is: if the path is not a directory, open it for
writing (`?`), overwrite it (`?`), and only then — for files and
directories alike — remove it. The model records which of the three
filesystem-mutating calls were executed, parametrised by the outcome each
call would have. -/

/-- The three filesystem-touching steps of `ShredOperation::cb`. -/
inductive ShredStep : Type where
  | openStep
  | overwriteStep
  | removeStep
deriving DecidableEq, Repr

/-- Models `ShredOperation::cb` (`src/operations.rs` lines 348-360) as the
sequence of steps executed and the returned result, given whether the path
is a directory and the outcome each step would have (`.ok ()` or an error,
already wrapped with the path by `FileErr::map`). The `?` operator makes an
erroring step the last one executed. -/
def shred_cb (is_dir : Bool) (openRes owRes removeRes : Except FileErr Unit) :
    List ShredStep × Except FileErr Bool :=
  if !is_dir then
    match openRes with
    | .error e => ([.openStep], .error e)
    | .ok _ =>
      match owRes with
      | .error e => ([.openStep, .overwriteStep], .error e)
      | .ok _ =>
        match removeRes with
        | .error e => ([.openStep, .overwriteStep, .removeStep], .error e)
        | .ok _ => ([.openStep, .overwriteStep, .removeStep], .ok true)
  else
    match removeRes with
    | .error e => ([.removeStep], .error e)
    | .ok _ => ([.removeStep], .ok true)

/-! ### The restore collision loop
(`src/lib/util.rs` 8-73, `RestoreOperation` in `src/operations.rs` 200-246)

Trash items are modelled by their identity (a `Nat`); the external trash
service's answer to `restore_all([item])` is a function from items to an
optional `TrashError` (`none` = restored). -/

/-- Models `trash::Error` as consumed by `handle_collision_item`: either a
`RestoreCollision` carrying the conflicting destination path, or any other
error (as a code). -/
inductive TrashError : Type where
  | restoreCollision (path : FsPath)
  | other (ecode : Nat)
deriving DecidableEq, Repr

/-- Models `remove_from_vec` (`src/lib/util.rs` lines 8-13):
`vec.retain(|v| v != needle)` removes every occurrence. -/
def remove_from_vec (vec : List Nat) (needle : Nat) : List Nat :=
  vec.filter (fun v => v ≠ needle)

/-- Models `remove_first_from_vec` (`src/lib/util.rs` lines 15-22): remove
the first occurrence of `needle`, if any. -/
def remove_first_from_vec : List Nat → Nat → List Nat
  | [], _ => []
  | x :: xs, n => if x = n then xs else x :: remove_first_from_vec xs n

/-- Models `count_occurences` (`src/lib/util.rs` lines 24-30). -/
def count_occurences (vec : List Nat) (needle : Nat) : Nat :=
  (vec.filter (fun v => v = needle)).length

theorem remove_first_length_lt (vec : List Nat) (n : Nat)
    (h : 0 < count_occurences vec n) :
    (remove_first_from_vec vec n).length < vec.length := by
  induction vec with
  | nil => simp [count_occurences] at h
  | cons x xs ih =>
    by_cases hx : x = n
    · simp [remove_first_from_vec, hx]
    · simp only [count_occurences, List.filter_cons] at h
      simp only [remove_first_from_vec, hx, if_false, List.length_cons]
      have := ih (by simpa [count_occurences, hx] using h)
      omega

/-- The `while count_occurences(files, item) > 1` loop of
`handle_collision_item` (`src/lib/util.rs` lines 65-67): remove the first
occurrence until at most one is left. Note it keeps one occurrence. -/
def remove_extra_occurrences (files : List Nat) (item : Nat) : List Nat :=
  if _h : 1 < count_occurences files item then
    remove_extra_occurrences (remove_first_from_vec files item) item
  else files
termination_by files.length
decreasing_by exact remove_first_length_lt files item (by omega)

/-- Models `handle_collision_item` (`src/lib/util.rs` lines 54-73): on a
`RestoreCollision` error, drop all but one pending occurrence of the item
and succeed; any other error is returned. Returns the updated list and the
`Result`. -/
def handle_collision_item (error : TrashError) (files : List Nat) (item : Nat) :
    List Nat × Except TrashError Unit :=
  match error with
  | .restoreCollision _ => (remove_extra_occurrences files item, .ok ())
  | .other e => (files, .error (.other e))

/-- The `for file in files.clone()` loop of `RestoreOperation::attempt_restore`
(`src/operations.rs` lines 232-243): iterate over a snapshot while mutating
the live list. On restore success remove every occurrence of the item; on an
error run `handle_collision_item` (propagating its error) and return
`Ok(false)`; if the snapshot is exhausted return `Ok(true)`. -/
def attempt_restore_go (env : Nat → Option TrashError) :
    List Nat → List Nat → List Nat × Except TrashError Bool
  | [], cur => (cur, .ok true)
  | f :: rest, cur =>
    match env f with
    | none => attempt_restore_go env rest (remove_from_vec cur f)
    | some err =>
      match handle_collision_item err cur f with
      | (cur1, .ok _) => (cur1, .ok false)
      | (cur1, .error e) => (cur1, .error e)

/-- Models `RestoreOperation::attempt_restore` (`src/operations.rs`
lines 231-246). -/
def attempt_restore (env : Nat → Option TrashError) (files : List Nat) :
    List Nat × Except TrashError Bool :=
  attempt_restore_go env files files

/-- The state of the `loop` in `RestoreOperation::operate`
(`src/operations.rs` lines 212-226). -/
inductive RestoreState : Type where
  | running (items : List Nat)
  | done
  | failed (e : TrashError)
deriving DecidableEq, Repr

/-- One iteration of the `loop` in `RestoreOperation::operate`: run
`attempt_restore`; `Ok(true)` finishes, `Ok(false)` loops with the updated
list, an error fails. -/
def restore_step (env : Nat → Option TrashError) : RestoreState → RestoreState
  | .running items =>
    match attempt_restore env items with
    | (_, .ok true) => .done
    | (items1, .ok false) => .running items1
    | (_, .error e) => .failed e
  | s => s

/-- `n` iterations of the restore loop. -/
def restore_iter (env : Nat → Option TrashError) (s : RestoreState) :
    Nat → RestoreState
  | 0 => s
  | n + 1 => restore_iter env (restore_step env s) n

/-! ### Recursion confirmation (`check_recursion`, `src/operations.rs` 459-468)

`check_recursion` scans the root paths; the roots are abstracted to the one
bit the function inspects, `path.is_dir()`. The interactive
`prompt_recursion` answer is an `Except Unit Bool` (its `io::Result`);
`is_ok_and(|v| v)` maps it to a `Bool`. -/

/-- The `for path in paths` loop of `check_recursion`: return the prompt's
answer at the first directory; fall through if none. -/
def check_recursion_go (ans : Except Unit Bool) : List Bool → Option Bool
  | [] => none
  | d :: rest =>
    if d then some (match ans with | .ok v => v | .error _ => false)
    else check_recursion_go ans rest

/-- Models `check_recursion` (`src/operations.rs` lines 459-468): when
`recurse_default` is unset, prompt at the first directory root and return
that answer; otherwise (or when no root is a directory) return
`recurse_default`. `dirs` lists `path.is_dir()` for each root in order. -/
def check_recursion (dirs : List Bool) (recurse_default : Bool)
    (ans : Except Unit Bool) : Bool :=
  if !recurse_default then
    match check_recursion_go ans dirs with
    | some v => v
    | none => recurse_default
  else recurse_default

/-! ## Lemmas about the overwrite engine -/

theorem write_all_replicate_length (c : List Nat) (pos n : Nat)
    (h : pos + n ≤ c.length) :
    (write_all c pos (List.replicate n 0)).length = c.length := by
  simp only [write_all, List.length_append, List.length_take, List.length_replicate,
    List.length_drop]
  omega

/-- The inner loop of one pass zero-fills everything from `pos` to the end of
the file, leaves the bytes before `pos` alone, preserves the length, and
writes exactly `file_len - pos` bytes. -/
theorem ow_loop_spec (L : Nat) : ∀ fuel c pos w, L - pos ≤ fuel → pos ≤ L →
    c.length = L →
    (ow_loop L c pos w).1 = c.take pos ++ List.replicate (L - pos) 0 ∧
    (ow_loop L c pos w).2.2 = w + (L - pos) := by
  intro fuel
  induction fuel with
  | zero =>
    intro c pos w hf hpos hlen
    have hOW : ¬ OW_BUFF_SIZE ≤ L - pos := by
      have : (0:Nat) < OW_BUFF_SIZE := by norm_num [OW_BUFF_SIZE]
      omega
    rw [ow_loop, if_neg hOW]
    have hdrop2 : pos + (L - pos) = c.length := by omega
    refine ⟨?_, by simp⟩
    rw [write_all]
    simp only [List.length_replicate]
    rw [hdrop2, List.drop_length, List.append_nil]
  | succ n ih =>
    intro c pos w hf hpos hlen
    by_cases hOW : OW_BUFF_SIZE ≤ L - pos
    · have hBpos : (0:Nat) < OW_BUFF_SIZE := by norm_num [OW_BUFF_SIZE]
      rw [ow_loop, if_pos hOW]
      have hle : pos + OW_BUFF_SIZE ≤ L := by omega
      have hlen2 : (write_all c pos (List.replicate OW_BUFF_SIZE 0)).length = L := by
        rw [write_all_replicate_length c pos OW_BUFF_SIZE (by omega), hlen]
      obtain ⟨ih1, ih2⟩ := ih (write_all c pos (List.replicate OW_BUFF_SIZE 0))
        (pos + OW_BUFF_SIZE) (w + OW_BUFF_SIZE) (by omega) hle hlen2
      refine ⟨?_, by rw [ih2]; omega⟩
      rw [ih1]
      have hA : (c.take pos ++ List.replicate OW_BUFF_SIZE 0).length
          = pos + OW_BUFF_SIZE := by
        simp only [List.length_append, List.length_take, List.length_replicate]
        omega
      have htk : (write_all c pos (List.replicate OW_BUFF_SIZE 0)).take
          (pos + OW_BUFF_SIZE) = c.take pos ++ List.replicate OW_BUFF_SIZE 0 := by
        rw [write_all]
        simp only [List.length_replicate]
        rw [List.take_append_eq_append_take,
          List.take_of_length_le (le_of_eq hA), hA]
        simp
      rw [htk, List.append_assoc, ← List.replicate_add]
      have harith : OW_BUFF_SIZE + (L - (pos + OW_BUFF_SIZE)) = L - pos := by omega
      rw [harith]
    · rw [ow_loop, if_neg hOW]
      have hdrop2 : pos + (L - pos) = c.length := by omega
      refine ⟨?_, by simp⟩
      rw [write_all]
      simp only [List.length_replicate]
      rw [hdrop2, List.drop_length, List.append_nil]

/-- One full pass starting at offset 0 zeroes the whole file. -/
theorem ow_pass_zeroes (L : Nat) (c : List Nat) (w : Nat) (hlen : c.length = L) :
    (ow_loop L c 0 w).1 = List.replicate L 0 := by
  have := (ow_loop_spec L (L - 0) c 0 w (le_refl _) (Nat.zero_le _) hlen).1
  simpa using this

/-- Extra passes over an already-zeroed file keep it zeroed. -/
theorem ow_runs_replicate (L : Nat) : ∀ r w,
    (ow_runs L (List.replicate L 0) w r).1 = List.replicate L 0 := by
  intro r
  induction r with
  | zero => intro w; rfl
  | succ n ih =>
    intro w
    rw [ow_runs]
    rw [show (ow_loop L (List.replicate L 0) 0 w).1 = List.replicate L 0 from
      ow_pass_zeroes L _ w (by simp)]
    exact ih _

/-! ## Lemmas about the traversal engine -/

/-- The path an event was emitted for. -/
def Event.path : Event → FsPath
  | .notify p _ => p
  | .act p => p

/-- `execute_callbacks` on the instrumented operation appends exactly the
notify event and the act event for the path, in that order, and returns
`display_cb`'s answer conjoined with `cb`'s (errors propagating). -/
theorem execute_callbacks_traceOp (f : FsPath → Bool → Bool)
    (g : FsPath → Except FileErr Bool) (s : List Event) (p : FsPath) (d : Bool) :
    execute_callbacks (traceOp f g) s p d
      = (s ++ [.notify p d, .act p], (g p).map (fun b => f p d && b)) := by
  simp [execute_callbacks, traceOp]

theorem mem_two {α : Type} {x a b : α} (h : x ∈ [a, b]) : x = a ∨ x = b := by
  simpa using h

/-- The traversal only appends to the event trace, and every event emitted
while processing the entries of a directory at `p` is for a strictly longer
path (a descendant of `p`). -/
theorem runEntries_trace (f : FsPath → Bool → Bool)
    (g : FsPath → Except FileErr Bool) (s : List Event) (p : FsPath)
    (es : List FsTree) (c : Nat) :
    ∃ tr, (runEntries (traceOp f g) s p es c).1 = s ++ tr ∧
      ∀ ev ∈ tr, p.length < ev.path.length := by
  refine RRecycle.runEntries.induct (traceOp f g)
    (fun s p t c =>
      ∃ tr, (run_op_on_dir_recursive (traceOp f g) s p t c).1 = s ++ tr ∧
        ∀ ev ∈ tr, p.length ≤ ev.path.length)
    (fun s p es c =>
      ∃ tr, (runEntries (traceOp f g) s p es c).1 = s ++ tr ∧
        ∀ ev ∈ tr, p.length < ev.path.length)
    ?_ ?_ ?_ ?_ ?_ ?_ ?_ ?_ ?_ ?_ ?_ ?_ ?_ s p es c
  · intro s p c name
    exact ⟨[], by simp [run_op_on_dir_recursive], by simp⟩
  · intro s p c name ecode
    exact ⟨[], by simp [run_op_on_dir_recursive], by simp⟩
  · intro s p c name entries s1 e h ih
    obtain ⟨tr, htr, hlt⟩ := ih
    rw [h] at htr
    exact ⟨tr, by simp [run_op_on_dir_recursive, h]; exact htr,
      fun ev hev => le_of_lt (hlt ev hev)⟩
  · intro s p c name entries s1 c2 h ih
    obtain ⟨tr, htr, hlt⟩ := ih
    rw [h] at htr
    exact ⟨tr, by simp [run_op_on_dir_recursive, h]; exact htr,
      fun ev hev => le_of_lt (hlt ev hev)⟩
  · intro s p c name entries s1 c2 h1 s2 e h2 ih
    obtain ⟨tr, htr, hlt⟩ := ih
    have htr1 : s1 = s ++ tr := by rw [h1] at htr; exact htr
    have h3 := execute_callbacks_traceOp f g s1 p true
    rw [h2] at h3
    have hs2 : s2 = s1 ++ [.notify p true, .act p] := congrArg Prod.fst h3
    refine ⟨tr ++ [.notify p true, .act p], ?_, ?_⟩
    · simp only [run_op_on_dir_recursive, h1, h2]
      rw [hs2, htr1, List.append_assoc]
    · intro ev hev
      rcases List.mem_append.mp hev with hev | hev
      · exact le_of_lt (hlt ev hev)
      · rcases mem_two hev with h | h
        · rw [h]; exact le_refl _
        · rw [h]; exact le_refl _
  · intro s p c name entries s1 c2 h1 s2 b h2 ih
    obtain ⟨tr, htr, hlt⟩ := ih
    have htr1 : s1 = s ++ tr := by rw [h1] at htr; exact htr
    have h3 := execute_callbacks_traceOp f g s1 p true
    rw [h2] at h3
    have hs2 : s2 = s1 ++ [.notify p true, .act p] := congrArg Prod.fst h3
    refine ⟨tr ++ [.notify p true, .act p], ?_, ?_⟩
    · simp only [run_op_on_dir_recursive, h1, h2]
      rw [hs2, htr1, List.append_assoc]
    · intro ev hev
      rcases List.mem_append.mp hev with hev | hev
      · exact le_of_lt (hlt ev hev)
      · rcases mem_two hev with h | h
        · rw [h]; exact le_refl _
        · rw [h]; exact le_refl _
  · intro s p c
    exact ⟨[], by simp [runEntries], by simp⟩
  · intro s p c e rest hdir s1 err h ih
    obtain ⟨tr, htr, hle⟩ := ih
    rw [h] at htr
    refine ⟨tr, by simp [runEntries, hdir, h]; exact htr, ?_⟩
    intro ev hev
    have := hle ev hev
    simp only [List.length_append, List.length_cons, List.length_nil] at this
    omega
  · intro s p c e rest hdir s1 k h ih
    obtain ⟨tr, htr, hle⟩ := ih
    rw [h] at htr
    refine ⟨tr, by simp [runEntries, hdir, h]; exact htr, ?_⟩
    intro ev hev
    have := hle ev hev
    simp only [List.length_append, List.length_cons, List.length_nil] at this
    omega
  · intro s p c e rest hdir s1 k h ih ih2
    obtain ⟨tr1, htr1a, hle1⟩ := ih
    have htr1 : s1 = s ++ tr1 := by rw [h] at htr1a; exact htr1a
    obtain ⟨tr2, htr2, hlt2⟩ := ih2
    refine ⟨tr1 ++ tr2, ?_, ?_⟩
    · simp only [runEntries, hdir, if_true, h]
      rw [htr2, htr1, List.append_assoc]
    · intro ev hev
      rcases List.mem_append.mp hev with hev | hev
      · have := hle1 ev hev
        simp only [List.length_append, List.length_cons, List.length_nil] at this
        omega
      · exact hlt2 ev hev
  · intro s p c e rest hdir s1 err h
    have h3 := execute_callbacks_traceOp f g s (p ++ [e.name]) false
    rw [h] at h3
    have hs1 : s1 = s ++ [.notify (p ++ [e.name]) false, .act (p ++ [e.name])] :=
      congrArg Prod.fst h3
    refine ⟨[.notify (p ++ [e.name]) false, .act (p ++ [e.name])],
      by simp [runEntries, hdir, h]; exact hs1, ?_⟩
    intro ev hev
    rcases mem_two hev with hh | hh
    · rw [hh]; simp [Event.path]
    · rw [hh]; simp [Event.path]
  · intro s p c e rest hdir s1 h
    have h3 := execute_callbacks_traceOp f g s (p ++ [e.name]) false
    rw [h] at h3
    have hs1 : s1 = s ++ [.notify (p ++ [e.name]) false, .act (p ++ [e.name])] :=
      congrArg Prod.fst h3
    refine ⟨[.notify (p ++ [e.name]) false, .act (p ++ [e.name])],
      by simp [runEntries, hdir, h]; exact hs1, ?_⟩
    intro ev hev
    rcases mem_two hev with hh | hh
    · rw [hh]; simp [Event.path]
    · rw [hh]; simp [Event.path]
  · intro s p c e rest hdir s1 h ih2
    have h3 := execute_callbacks_traceOp f g s (p ++ [e.name]) false
    rw [h] at h3
    have hs1 : s1 = s ++ [.notify (p ++ [e.name]) false, .act (p ++ [e.name])] :=
      congrArg Prod.fst h3
    obtain ⟨tr2, htr2, hlt2⟩ := ih2
    refine ⟨[.notify (p ++ [e.name]) false, .act (p ++ [e.name])] ++ tr2, ?_, ?_⟩
    · simp only [runEntries, hdir, Bool.false_eq_true, if_false, h]
      rw [htr2, hs1, List.append_assoc]
    · intro ev hev
      rcases List.mem_append.mp hev with hev | hev
      · rcases mem_two hev with hh | hh
        · rw [hh]; simp [Event.path]
        · rw [hh]; simp [Event.path]
      · exact hlt2 ev hev

/-- A whole-subtree traversal only appends to the event trace. -/
theorem run_op_trace (f : FsPath → Bool → Bool) (g : FsPath → Except FileErr Bool)
    (s : List Event) (p : FsPath) (t : FsTree) (c : Nat) :
    ∃ tr, (run_op_on_dir_recursive (traceOp f g) s p t c).1 = s ++ tr := by
  cases t with
  | file n => exact ⟨[], by simp [run_op_on_dir_recursive]⟩
  | badDir n e => exact ⟨[], by simp [run_op_on_dir_recursive]⟩
  | dir n entries =>
    obtain ⟨tr, htr, _⟩ := runEntries_trace f g s p entries c
    rcases hR : runEntries (traceOp f g) s p entries c with ⟨s1, r⟩
    have hs1 : s1 = s ++ tr := by rw [hR] at htr; exact htr
    cases r with
    | error e => exact ⟨tr, by simp [run_op_on_dir_recursive, hR]; exact hs1⟩
    | ok o =>
      cases o with
      | stopped c2 =>
        exact ⟨tr, by simp [run_op_on_dir_recursive, hR]; exact hs1⟩
      | done c2 =>
        refine ⟨tr ++ [.notify p true, .act p], ?_⟩
        simp only [run_op_on_dir_recursive, hR, execute_callbacks_traceOp]
        cases hg : g p <;> simp [Except.map, hg, hs1]

/-- If the entry loop of a directory runs to completion, the final trace
extends the initial one and contains an act event for every file entry of
the directory. -/
theorem runEntries_done_acts (f : FsPath → Bool → Bool)
    (g : FsPath → Except FileErr Bool) :
    ∀ (es : List FsTree) (s : List Event) (p : FsPath) (count : Nat)
      (s1 : List Event) (c : Nat),
    runEntries (traceOp f g) s p es count = (s1, .ok (.done c)) →
    (∃ tr, s1 = s ++ tr) ∧
      ∀ e ∈ es, e.isDir = false → Event.act (p ++ [e.name]) ∈ s1 := by
  intro es
  induction es with
  | nil =>
    intro s p count s1 c h
    simp only [runEntries, Prod.mk.injEq] at h
    exact ⟨⟨[], by simp [h.1]⟩, by simp⟩
  | cons e rest ih =>
    intro s p count s1 c h
    by_cases hdir : e.isDir
    · rcases hrun : run_op_on_dir_recursive (traceOp f g) s (p ++ [e.name]) e count
        with ⟨s2, r2⟩
      rw [runEntries] at h
      simp only [hdir, if_true, hrun] at h
      cases r2 with
      | error err => simp at h
      | ok pr =>
        rcases pr with ⟨k, b⟩
        cases b with
        | false => simp at h
        | true =>
          obtain ⟨⟨tr2, htr2⟩, hacts⟩ := ih s2 p count s1 c h
          obtain ⟨tr1, htr1⟩ := run_op_trace f g s (p ++ [e.name]) e count
          rw [hrun] at htr1
          have hs2 : s2 = s ++ tr1 := htr1
          refine ⟨⟨tr1 ++ tr2, by rw [htr2, hs2, List.append_assoc]⟩, ?_⟩
          intro e2 he2 hfile
          rcases List.mem_cons.mp he2 with he2 | he2
          · rw [he2] at hfile; rw [hfile] at hdir; cases hdir
          · exact hacts e2 he2 hfile
    · rw [runEntries] at h
      simp only [hdir, Bool.false_eq_true, if_false, execute_callbacks_traceOp] at h
      cases hg : g (p ++ [e.name]) with
      | error err => rw [hg] at h; simp [Except.map] at h
      | ok b =>
        rw [hg] at h
        cases hb : f (p ++ [e.name]) false && b with
        | false => simp [Except.map, hb] at h
        | true =>
          simp only [Except.map, hb] at h
          obtain ⟨⟨tr2, htr2⟩, hacts⟩ :=
            ih (s ++ [.notify (p ++ [e.name]) false, .act (p ++ [e.name])])
              p (count + 1) s1 c h
          refine ⟨⟨[.notify (p ++ [e.name]) false, .act (p ++ [e.name])] ++ tr2,
            by rw [htr2, List.append_assoc]⟩, ?_⟩
          intro e2 he2 hfile
          rcases List.mem_cons.mp he2 with he2 | he2
          · rw [htr2, he2]
            simp
          · exact hacts e2 he2 hfile

/-! ## Claim theorems -/

/-- C1: for every regular file of length L and every run count R ≥ 1,
a successful `overwrite_file` leaves the length unchanged and every byte in
[0, L) equal to 0x00, and the resulting byte content is the same for every
R ≥ 1 (R = 1 and R = 3 are observationally equal). -/
theorem overwrite_zeroes (content : List Nat) (runs : Nat) (h : 1 ≤ runs) :
    (overwrite_file false content runs).1 = List.replicate content.length 0 ∧
    (overwrite_file false content runs).1.length = content.length ∧
    (overwrite_file false content 1).1 = (overwrite_file false content 3).1 := by
  have key : ∀ r, (overwrite_file false content (r + 1)).1
      = List.replicate content.length 0 := by
    intro r
    have h1 : (ow_loop content.length content 0 0).1
        = List.replicate content.length 0 :=
      ow_pass_zeroes content.length content 0 rfl
    simp only [overwrite_file, Bool.false_eq_true, if_false, ow_runs]
    rw [h1]
    have h2 := (ow_loop_spec content.length content.length content 0 0
      (by omega) (by omega) rfl).2
    rw [h2]
    exact ow_runs_replicate content.length r _
  obtain ⟨r, rfl⟩ : ∃ r, runs = r + 1 := ⟨runs - 1, by omega⟩
  exact ⟨key r, by rw [key r]; simp, by rw [key 0, key 2]⟩

/-- Witness for C1 at byte content [1, 2, 3] and run count 1. -/
theorem overwrite_zeroes_witness :
    1 ≤ 1 ∧
    ((overwrite_file false [1, 2, 3] 1).1 = List.replicate ([1, 2, 3] : List Nat).length 0 ∧
     (overwrite_file false [1, 2, 3] 1).1.length = ([1, 2, 3] : List Nat).length ∧
     (overwrite_file false [1, 2, 3] 1).1 = (overwrite_file false [1, 2, 3] 3).1) :=
  ⟨le_refl 1, overwrite_zeroes [1, 2, 3] 1 (le_refl 1)⟩

/-- C9: `overwrite_file` on a directory handle is a success with no bytes
written and the content untouched, and on a zero-length file it succeeds
with no bytes written, for every run count. -/
theorem overwrite_noop_dir_and_empty :
    (∀ (content : List Nat) (runs : Nat),
      overwrite_file true content runs = (content, 0)) ∧
    (∀ runs : Nat, overwrite_file false [] runs = ([], 0)) := by
  constructor
  · intro content runs
    simp [overwrite_file]
  · have go : ∀ runs : Nat, ow_runs 0 [] 0 runs = ([], 0) := by
      intro runs
      induction runs with
      | zero => rfl
      | succ n ih =>
        have h1 : ow_loop 0 [] 0 0 = ([], 0, 0) := by
          rw [ow_loop]
          simp [OW_BUFF_SIZE, write_all]
        simp only [ow_runs, h1]
        exact ih
    intro runs
    simpa [overwrite_file] using go runs

/-- C10: `execute_callbacks` always invokes the mutating callback `cb`
(emitting its act event) directly after `display_cb` (the notify event),
whatever boolean `display_cb` returned — a false from `display_cb` shapes
only the returned continue flag, never whether `cb` runs. -/
theorem cb_runs_despite_display_false (f : FsPath → Bool → Bool)
    (g : FsPath → Except FileErr Bool) (s : List Event) (p : FsPath) (d : Bool) :
    execute_callbacks (traceOp f g) s p d
      = (s ++ [.notify p d, .act p], (g p).map (fun b => f p d && b)) ∧
    Event.act p ∈ (execute_callbacks (traceOp f g) s p d).1 := by
  refine ⟨execute_callbacks_traceOp f g s p d, ?_⟩
  rw [execute_callbacks_traceOp f g s p d]
  simp

/-- C2: if the entry loop of the directory at path p runs to completion
(the traversal fully visits D), then the traversal's whole event trace is
the entry loop's trace followed by exactly the notify and act events of the
directory itself: the act call for D occurs strictly after every act call
for its file entries (all of which appear in the entry-loop trace) and
after the completed sub-traversals of its subdirectories, and no act event
for D itself occurs anywhere in the entry-loop trace. -/
theorem traversal_postorder (f : FsPath → Bool → Bool)
    (g : FsPath → Except FileErr Bool) (p : FsPath) (name : String)
    (entries : List FsTree) (count : Nat) (s1 : List Event) (c : Nat)
    (h : runEntries (traceOp f g) [] p entries count = (s1, .ok (.done c))) :
    run_op_on_dir_recursive (traceOp f g) [] p (.dir name entries) count
      = (s1 ++ [.notify p true, .act p],
         ((g p).map (fun b => f p true && b)).map (fun b => (c + 1, b))) ∧
    (∀ e ∈ entries, e.isDir = false → Event.act (p ++ [e.name]) ∈ s1) ∧
    Event.act p ∉ s1 := by
  refine ⟨?_, ?_, ?_⟩
  · simp only [run_op_on_dir_recursive, h, execute_callbacks_traceOp]
    cases hg : g p <;> simp [Except.map]
  · exact (runEntries_done_acts f g entries [] p count s1 c h).2
  · obtain ⟨tr, htr, hlt⟩ := runEntries_trace f g [] p entries count
    have hs1 : s1 = tr := by rw [h] at htr; simpa using htr
    intro hmem
    rw [hs1] at hmem
    have := hlt _ hmem
    simp [Event.path] at this

/-- Witness for C2: a directory d containing the single file x. -/
theorem traversal_postorder_witness :
    runEntries (traceOp (fun _ _ => true) (fun _ => .ok true)) [] ["d"]
        [.file "x"] 0
      = ([.notify ["d", "x"] false, .act ["d", "x"]], .ok (.done 1)) ∧
    (run_op_on_dir_recursive (traceOp (fun _ _ => true) (fun _ => .ok true)) []
        ["d"] (.dir "d" [.file "x"]) 0
      = ([.notify ["d", "x"] false, .act ["d", "x"]]
          ++ [.notify ["d"] true, .act ["d"]],
         ((Except.ok true).map (fun b => true && b)).map (fun b => (1 + 1, b))) ∧
     (∀ e ∈ [FsTree.file "x"], e.isDir = false →
        Event.act (["d"] ++ [e.name]) ∈
          [Event.notify ["d", "x"] false, Event.act ["d", "x"]]) ∧
     Event.act ["d"] ∉ [Event.notify ["d", "x"] false, Event.act ["d", "x"]]) := by
  have h : runEntries (traceOp (fun _ _ => true) (fun _ => .ok true)) [] ["d"]
      [.file "x"] 0
      = ([.notify ["d", "x"] false, .act ["d", "x"]], .ok (.done 1)) := by
    simp [runEntries, execute_callbacks, traceOp, FsTree.isDir, FsTree.name,
      Except.map]
  exact ⟨h, traversal_postorder (fun _ _ => true) (fun _ => .ok true) ["d"] "d"
    [.file "x"] 0 _ 1 h⟩

/-- C3: the concrete scenario of a directory a containing the file b.txt
and the empty subdirectory c. The recursive traversal (with the Delete
callbacks, which report and return continue = true on success, as modelled
by the constant-true instrumented operation) processes entries in the order
b.txt, c, a — but the final processed count is 2, not 3: the parent frame
discards the count returned by the recursive call on the subdirectory c
(`src/src/lib/files.rs` line 43 inspects only `.1` of the recursive
result), so c's own increment is lost. -/
theorem delete_scenario_count_two :
    run_op_on_dir_recursive (traceOp (fun _ _ => true) (fun _ => .ok true)) []
      ["a"] (.dir "a" [.file "b.txt", .dir "c" []]) 0
    = ([.notify ["a", "b.txt"] false, .act ["a", "b.txt"],
        .notify ["a", "c"] true, .act ["a", "c"],
        .notify ["a"] true, .act ["a"]], .ok (2, true)) ∧
    recurse_on_paths (traceOp (fun _ _ => true) (fun _ => .ok true)) []
      [(["a"], .dir "a" [.file "b.txt", .dir "c" []])] true
    = ([.notify ["a", "b.txt"] false, .act ["a", "b.txt"],
        .notify ["a", "c"] true, .act ["a", "c"],
        .notify ["a"] true, .act ["a"]], .ok 2) := by
  constructor <;>
    simp [recurse_on_paths, recurse_on_paths_go, run_op_on_dir_recursive,
      runEntries, execute_callbacks, traceOp, FsTree.isDir, FsTree.name,
      Except.map]

/-- C4: with a single requested item whose restore attempt always reports a
destination collision, the restore loop never terminates: each pass leaves
the pending list unchanged, because `handle_collision_item` removes pending
occurrences only while more than one remains (`src/src/lib/util.rs` line
65), keeping one occurrence to be retried forever. The second conjunct
shows a collision on a doubly-requested item also keeps one occurrence
instead of removing all of them. -/
theorem restore_collision_loop_diverges :
    (∀ n : Nat, restore_iter (fun _ => some (.restoreCollision ["occupied"]))
        (.running [0]) n = .running [0]) ∧
    handle_collision_item (.restoreCollision ["occupied"]) [0, 0] 0
      = ([0], .ok ()) := by
  constructor
  · have hstep : restore_step (fun _ => some (.restoreCollision ["occupied"]))
        (.running [0]) = .running [0] := by
      simp [restore_step, attempt_restore, attempt_restore_go,
        handle_collision_item, remove_extra_occurrences, count_occurences,
        remove_first_from_vec]
    intro n
    induction n with
    | zero => rfl
    | succ m ih =>
      simp only [restore_iter, hstep]
      exact ih
  · simp [handle_collision_item, remove_extra_occurrences, count_occurences,
      remove_first_from_vec]

/-- C7: in `ShredOperation::cb` on a non-directory path, if the open fails
the only step executed is the open, if the overwrite fails no removal has
been executed either, and in general the remove step runs exactly when both
the open and the overwrite succeeded. -/
theorem shred_no_remove_after_failure :
    (∀ (w r : Except FileErr Unit) (e : FileErr),
      shred_cb false (.error e) w r = ([.openStep], .error e)) ∧
    (∀ (r : Except FileErr Unit) (e : FileErr),
      shred_cb false (.ok ()) (.error e) r = ([.openStep, .overwriteStep], .error e)) ∧
    (∀ (o w r : Except FileErr Unit),
      ShredStep.removeStep ∈ (shred_cb false o w r).1 ↔ o = .ok () ∧ w = .ok ()) := by
  refine ⟨?_, ?_, ?_⟩
  · intro w r e
    simp [shred_cb]
  · intro r e
    simp [shred_cb]
  · intro o w r
    cases o with
    | error e => simp [shred_cb]
    | ok u =>
      cases u
      cases w with
      | error e => simp [shred_cb]
      | ok u2 =>
        cases u2
        cases r with
        | error e => simp [shred_cb]
        | ok u3 => cases u3; simp [shred_cb]

/-- C5 counterexample: two roots A (containing files x and y) and B; the
act for A/x signals stop (cb returns continue = false), so A's traversal
stops (y and A itself are never visited) — yet the later root B still
receives notify and act calls, and the batch count is 2: a stop does not
silence later roots of the same multi-root batch, contradicting the claim
as stated. -/
theorem stop_does_not_silence_later_roots_cex :
    recurse_on_paths (traceOp (fun _ _ => true) (fun _ => .ok false)) []
      [(["A"], .dir "A" [.file "x", .file "y"]), (["B"], .dir "B" [])] true
    = ([.notify ["A", "x"] false, .act ["A", "x"],
        .notify ["B"] true, .act ["B"]], .ok 2) ∧
    Event.act ["B"] ∈ (recurse_on_paths (traceOp (fun _ _ => true) (fun _ => .ok false)) []
      [(["A"], .dir "A" [.file "x", .file "y"]), (["B"], .dir "B" [])] true).1 := by
  constructor <;>
    simp [recurse_on_paths, recurse_on_paths_go, run_op_on_dir_recursive,
      runEntries, execute_callbacks, traceOp, FsTree.isDir, FsTree.name,
      Except.map]

/-- C5 (amended): whenever an entry's act or confirmation signals stop
during the recursive traversal of one root, no subsequent sibling entry and
no ancestor directory within that root receives any further notify or act
call — each frame returns immediately, independently of the remaining
sibling list, and the enclosing directory's own callbacks are skipped; the
stopped root's frame reports its own running count. Later roots of the
batch, however, are still processed (the stop bool is ignored by the root
loop, which continues with the accumulated counter). -/
theorem stop_skips_siblings_and_ancestors :
    (∀ (σ : Type) (op : RecursiveCallback σ) (s s1 : σ) (p : FsPath)
       (e : FsTree) (rest : List FsTree) (count k : Nat),
      e.isDir = true →
      run_op_on_dir_recursive op s (p ++ [e.name]) e count = (s1, .ok (k, false)) →
      runEntries op s p (e :: rest) count = (s1, .ok (.stopped count))) ∧
    (∀ (σ : Type) (op : RecursiveCallback σ) (s s1 : σ) (p : FsPath)
       (e : FsTree) (rest : List FsTree) (count : Nat),
      e.isDir = false →
      execute_callbacks op s (p ++ [e.name]) false = (s1, .ok false) →
      runEntries op s p (e :: rest) count = (s1, .ok (.stopped (count + 1)))) ∧
    (∀ (σ : Type) (op : RecursiveCallback σ) (s s1 : σ) (p : FsPath)
       (n : String) (es : List FsTree) (count c : Nat),
      runEntries op s p es count = (s1, .ok (.stopped c)) →
      run_op_on_dir_recursive op s p (.dir n es) count = (s1, .ok (c, false))) ∧
    (∀ (σ : Type) (op : RecursiveCallback σ) (s s1 : σ) (p : FsPath)
       (t : FsTree) (rest : List (FsPath × FsTree)) (counter c : Nat) (b : Bool),
      t.isDir = true →
      run_op_on_dir_recursive op s p t 0 = (s1, .ok (c, b)) →
      recurse_on_paths_go op s ((p, t) :: rest) counter true
        = recurse_on_paths_go op s1 rest (counter + c) true) := by
  refine ⟨?_, ?_, ?_, ?_⟩
  · intro σ op s s1 p e rest count k hdir hrun
    simp [runEntries, hdir, hrun]
  · intro σ op s s1 p e rest count hdir hexec
    simp [runEntries, hdir, hexec]
  · intro σ op s s1 p n es count c hrun
    simp [run_op_on_dir_recursive, hrun]
  · intro σ op s s1 p t rest counter c b hdir hrun
    simp [recurse_on_paths_go, hdir, hrun]

/-- Witness for amended C5 on concrete inputs: a stopping subdirectory, a
stopping file, the stopped directory frame, and a stopped root followed by
the rest of the batch. -/
theorem stop_skips_siblings_and_ancestors_witness :
    runEntries (traceOp (fun _ _ => true) (fun _ => .ok false)) [] []
        [.dir "d" [.file "x"], .file "z"] 0
      = ([.notify ["d", "x"] false, .act ["d", "x"]], .ok (.stopped 0)) ∧
    runEntries (traceOp (fun _ _ => true) (fun _ => .ok false)) [] []
        [.file "w", .file "z"] 0
      = ([.notify ["w"] false, .act ["w"]], .ok (.stopped 1)) ∧
    run_op_on_dir_recursive (traceOp (fun _ _ => true) (fun _ => .ok false)) [] []
        (.dir "r" [.file "w"]) 0
      = ([.notify ["w"] false, .act ["w"]], .ok (1, false)) ∧
    recurse_on_paths_go (traceOp (fun _ _ => true) (fun _ => .ok false)) []
        [(["B"], .dir "B" [])] 5 true
      = recurse_on_paths_go (traceOp (fun _ _ => true) (fun _ => .ok false))
          [.notify ["B"] true, .act ["B"]] [] (5 + 1) true := by
  refine ⟨?_, ?_, ?_, ?_⟩
  · exact stop_skips_siblings_and_ancestors.1 (List Event) _ [] _ [] (.dir "d" [.file "x"])
      [.file "z"] 0 1 rfl
      (by simp [run_op_on_dir_recursive, runEntries, execute_callbacks, traceOp,
        FsTree.isDir, FsTree.name, Except.map])
  · exact stop_skips_siblings_and_ancestors.2.1 (List Event) _ [] _ [] (.file "w")
      [.file "z"] 0 rfl
      (by simp [execute_callbacks, traceOp, FsTree.name, Except.map])
  · exact stop_skips_siblings_and_ancestors.2.2.1 (List Event) _ [] _ [] "r"
      [.file "w"] 0 1
      (by simp [runEntries, execute_callbacks, traceOp, FsTree.isDir,
        FsTree.name, Except.map])
  · exact stop_skips_siblings_and_ancestors.2.2.2 (List Event) _ [] _ ["B"]
      (.dir "B" []) [] 5 1 false rfl
      (by simp [run_op_on_dir_recursive, runEntries, execute_callbacks, traceOp,
        Except.map])

/-- C6: any io failure aborts the whole multi-root batch. Enumeration
failure on a directory returns immediately with the error wrapped with that
directory's path and no callbacks invoked; a root whose traversal errors
makes the root loop return that error at once, whatever roots remain (they
are never attempted: the result does not depend on them); a failing act on
an entry aborts the entry loop and propagates unchanged through the
enclosing directory frames. -/
theorem fail_fast_batch :
    (∀ (σ : Type) (op : RecursiveCallback σ) (s : σ) (p : FsPath) (n : String)
       (ec count : Nat),
      run_op_on_dir_recursive op s p (.badDir n ec) count = (s, .error ⟨ec, p⟩)) ∧
    (∀ (σ : Type) (op : RecursiveCallback σ) (s s1 : σ) (p : FsPath) (t : FsTree)
       (rest : List (FsPath × FsTree)) (counter : Nat) (e : FileErr),
      t.isDir = true →
      run_op_on_dir_recursive op s p t 0 = (s1, .error e) →
      recurse_on_paths_go op s ((p, t) :: rest) counter true = (s1, .error e)) ∧
    (∀ (σ : Type) (op : RecursiveCallback σ) (s s1 : σ) (p : FsPath) (t : FsTree)
       (rest : List (FsPath × FsTree)) (counter : Nat) (e : FileErr),
      t.isDir = false →
      execute_callbacks op s p false = (s1, .error e) →
      recurse_on_paths_go op s ((p, t) :: rest) counter true = (s1, .error e)) ∧
    (∀ (σ : Type) (op : RecursiveCallback σ) (s s1 : σ) (p : FsPath) (e : FsTree)
       (rest : List FsTree) (count : Nat) (err : FileErr),
      e.isDir = false →
      execute_callbacks op s (p ++ [e.name]) false = (s1, .error err) →
      runEntries op s p (e :: rest) count = (s1, .error err)) ∧
    (∀ (σ : Type) (op : RecursiveCallback σ) (s s1 : σ) (p : FsPath) (n : String)
       (es : List FsTree) (count : Nat) (e : FileErr),
      runEntries op s p es count = (s1, .error e) →
      run_op_on_dir_recursive op s p (.dir n es) count = (s1, .error e)) := by
  refine ⟨?_, ?_, ?_, ?_, ?_⟩
  · intro σ op s p n ec count
    simp [run_op_on_dir_recursive]
  · intro σ op s s1 p t rest counter e hdir hrun
    simp [recurse_on_paths_go, hdir, hrun]
  · intro σ op s s1 p t rest counter e hdir hexec
    simp [recurse_on_paths_go, hdir, hexec]
  · intro σ op s s1 p e rest count err hdir hexec
    simp [runEntries, hdir, hexec]
  · intro σ op s s1 p n es count e hrun
    simp [run_op_on_dir_recursive, hrun]

/-- Witness for C6 on concrete inputs: a directory with failing
enumeration as a root (with a second root present but never attempted), a
file root with a failing act, and a failing act inside a directory. -/
theorem fail_fast_batch_witness :
    run_op_on_dir_recursive (traceOp (fun _ _ => true) (fun _ => .ok true)) []
        ["A"] (.badDir "A" 7) 0 = ([], .error ⟨7, ["A"]⟩) ∧
    recurse_on_paths_go (traceOp (fun _ _ => true) (fun _ => .ok true)) []
        [(["A"], .badDir "A" 7), (["B"], .file "B")] 0 true
      = ([], .error ⟨7, ["A"]⟩) ∧
    recurse_on_paths_go (traceOp (fun _ _ => true) (fun _ => .error ⟨3, ["f"]⟩)) []
        [(["f"], .file "f"), (["B"], .file "B")] 0 true
      = ([.notify ["f"] false, .act ["f"]], .error ⟨3, ["f"]⟩) ∧
    runEntries (traceOp (fun _ _ => true) (fun _ => .error ⟨3, ["f"]⟩)) [] []
        [.file "f", .file "z"] 0
      = ([.notify ["f"] false, .act ["f"]], .error ⟨3, ["f"]⟩) ∧
    run_op_on_dir_recursive (traceOp (fun _ _ => true) (fun _ => .error ⟨3, ["f"]⟩))
        [] [] (.dir "r" [.file "f", .file "z"]) 0
      = ([.notify ["f"] false, .act ["f"]], .error ⟨3, ["f"]⟩) := by
  have hexec : execute_callbacks (traceOp (fun _ _ => true)
      (fun _ => .error ⟨3, ["f"]⟩)) [] ["f"] false
      = ([.notify ["f"] false, .act ["f"]], .error ⟨3, ["f"]⟩) := by
    simp [execute_callbacks, traceOp, Except.map]
  have hrunE : runEntries (traceOp (fun _ _ => true) (fun _ => .error ⟨3, ["f"]⟩))
      [] [] [.file "f", .file "z"] 0
      = ([.notify ["f"] false, .act ["f"]], .error ⟨3, ["f"]⟩) :=
    fail_fast_batch.2.2.2.1 (List Event) _ [] _ [] (.file "f") [.file "z"] 0
      ⟨3, ["f"]⟩ rfl (by simpa [FsTree.name] using hexec)
  refine ⟨?_, ?_, ?_, hrunE, ?_⟩
  · exact fail_fast_batch.1 (List Event) _ [] ["A"] "A" 7 0
  · exact fail_fast_batch.2.1 (List Event) _ [] [] ["A"] (.badDir "A" 7)
      [(["B"], .file "B")] 0 ⟨7, ["A"]⟩ rfl
      (fail_fast_batch.1 (List Event) _ [] ["A"] "A" 7 0)
  · exact fail_fast_batch.2.2.1 (List Event) _ [] _ ["f"] (.file "f")
      [(["B"], .file "B")] 0 ⟨3, ["f"]⟩ rfl hexec
  · exact fail_fast_batch.2.2.2.2 (List Event) _ [] _ [] "r" [.file "f", .file "z"]
      0 ⟨3, ["f"]⟩ hrunE

theorem check_recursion_go_ok_false :
    ∀ (ds : List Bool) (v : Bool),
      check_recursion_go (.ok false) ds = some v → v = false := by
  intro ds
  induction ds with
  | nil => intro v h; simp [check_recursion_go] at h
  | cons d rest ih =>
    intro v h
    cases d with
    | true =>
      simp [check_recursion_go] at h
      exact h
    | false =>
      simp only [check_recursion_go, Bool.false_eq_true, if_false] at h
      exact ih v h

/-- C8 counterexample: a single root that is an empty directory, with the
recursion prompt declined (`prompt_recursion` answering Ok(false)).
`check_recursion` returns false, and the root loop then runs the
non-recursive branch on the directory root: its notify (with is_dir
reported as false) and act are both invoked — the root is not skipped,
contradicting the claim that no act is attempted on it. -/
theorem declined_recursion_root_still_acted_cex :
    check_recursion [true] false (.ok false) = false ∧
    recurse_on_paths (traceOp (fun _ _ => true) (fun _ => .ok true)) []
      [(["A"], .dir "A" [])] false
      = ([.notify ["A"] false, .act ["A"]], .ok 0) ∧
    Event.act ["A"] ∈ (recurse_on_paths (traceOp (fun _ _ => true) (fun _ => .ok true)) []
      [(["A"], .dir "A" [])] false).1 := by
  refine ⟨?_, ?_, ?_⟩ <;>
    simp [check_recursion, check_recursion_go, recurse_on_paths,
      recurse_on_paths_go, execute_callbacks, traceOp, FsTree.isDir, Except.map]

/-- C8 (amended): declining the recursion confirmation disables recursion
for the entire batch (`check_recursion` returns false whatever the roots
are), and with recursion disabled no root is skipped: every root, directory
or not, still receives one non-recursive `execute_callbacks` call (notify
with is_dir = false, then act), the loop continuing with the next root only
when that call succeeds and aborting on its error. -/
theorem declined_recursion_disables_recursion :
    (∀ ds : List Bool, check_recursion ds false (.ok false) = false) ∧
    (∀ (σ : Type) (op : RecursiveCallback σ) (s : σ) (p : FsPath) (t : FsTree)
       (rest : List (FsPath × FsTree)) (counter : Nat),
      recurse_on_paths_go op s ((p, t) :: rest) counter false =
        match execute_callbacks op s p false with
        | (s1, .error e) => (s1, .error e)
        | (s1, .ok _) => recurse_on_paths_go op s1 rest counter false) := by
  constructor
  · intro ds
    rw [check_recursion]
    simp only [Bool.not_false, if_true]
    rcases hgo : check_recursion_go (.ok false) ds with _ | v
    · rfl
    · exact check_recursion_go_ok_false ds v hgo
  · intro σ op s p t rest counter
    simp [recurse_on_paths_go]

end RRecycle
